import Mathlib

/-!
Shallow embedding of the getcomics.info downloader (src/main.py, src/query.py)
and proofs about its specified behaviour.  Pure string manipulation is
modelled over `List Char`; the filesystem is an explicit association list
from path strings to byte lists; network fetches are oracles passed as
function arguments; a Python exception escaping a function is modelled by an
explicit error value carrying the exception class name.
-/

namespace GetComics

/-- Python `str.replace("\\", "/")`: every backslash becomes a forward slash
(query.py line 147). -/
def bsNorm (s : String) : String :=
  ⟨s.data.map (fun c => if c = '\\' then '/' else c)⟩

/-- Membership test for the modelled filesystem used by `create_file_name`:
the filesystem is the list of currently existing paths, and
`Path(p).exists()` is membership in that list. -/
def fsHas (fs : List String) (p : String) : Bool :=
  fs.contains p

/-- Helper for `rpartition`: split a character list at the LAST occurrence of
`c`, returning the parts before and after it, or `none` when `c` does not
occur. -/
def rpartAux (c : Char) : List Char → Option (List Char × List Char)
  | [] => none
  | x :: xs =>
    match rpartAux c xs with
    | some (pre, post) => some (x :: pre, post)
    | none => if x = c then some ([], xs) else none

/-- Python `s.rpartition(c)` restricted to the two useful components:
`(head, tail)` around the last occurrence of `c`; when `c` is absent Python
returns `("", "", s)`, i.e. head `""` and tail `s`. -/
def rpartition (s : String) (c : Char) : String × String :=
  match rpartAux c s.data with
  | some (pre, post) => (⟨pre⟩, ⟨post⟩)
  | none => ("", s)

/-- The candidate name probed by the collision loop of `create_file_name`
(query.py line 166): `f"{directories}{stem} ({num}){suffix}"`. -/
def candName (directories stem suffix : String) (num : Nat) : String :=
  directories ++ stem ++ " (" ++ Nat.repr num ++ ")" ++ suffix

/-- The `while Path(...).exists(): num += 1` probe loop of
`Query.create_file_name` (query.py lines 165-168), with fuel; on exhaustion
it returns the current candidate (the Python loop is unbounded, but the fuel
passed by `create_file_name` exceeds the number of existing paths, so
exhaustion is unreachable there). -/
def probeLoop (fs : List String) (directories stem suffix : String) :
    Nat → Nat → String
  | 0, num => candName directories stem suffix num
  | fuel + 1, num =>
    if fsHas fs (candName directories stem suffix num) then
      probeLoop fs directories stem suffix fuel (num + 1)
    else
      candName directories stem suffix num

/-- The directory split of `create_file_name` (query.py lines 151-156):
`directories, _, filename = filename.rpartition("/"); directories += "/"`
when the path contains a slash, else no directory part. -/
def dirSplitOf (filename : String) : String × String :=
  if filename.data.contains '/' then
    ((rpartition filename '/').1 ++ "/", (rpartition filename '/').2)
  else ("", filename)

/-- The stem/suffix split of `create_file_name` (query.py lines 158-163):
`stem, _, suffix = filename.rpartition("."); suffix = "." + suffix` when the
name contains a dot, else an empty suffix. -/
def stemSplitOf (rest : String) : String × String :=
  if rest.data.contains '.' then
    ((rpartition rest '.').1, "." ++ (rpartition rest '.').2)
  else (rest, "")

/-- `Query.create_file_name` (query.py lines 135-168): replace backslashes
with slashes, return unchanged if the path does not exist, otherwise split
into directories / stem / suffix and probe `stem (0)suffix`, `stem (1)suffix`,
... for the first non-existing name. -/
def create_file_name (fs : List String) (filename0 : String) : String :=
  let filename := bsNorm filename0
  if fsHas fs filename then
    probeLoop fs (dirSplitOf filename).1
      (stemSplitOf (dirSplitOf filename).2).1
      (stemSplitOf (dirSplitOf filename).2).2 (fs.length + 1) 0
  else
    filename

/-- Hexadecimal value of a character, for percent-decoding. -/
def hexVal (c : Char) : Option Nat :=
  if '0' ≤ c ∧ c ≤ '9' then some (c.toNat - 48)
  else if 'a' ≤ c ∧ c ≤ 'f' then some (c.toNat - 87)
  else if 'A' ≤ c ∧ c ≤ 'F' then some (c.toNat - 55)
  else none

/-- `urllib.parse.unquote` on character lists, restricted to single-byte
(ASCII) percent escapes, which is the only form the concrete inputs of this
development use: a `%` followed by two hex digits decodes to that byte;
anything else passes through unchanged. -/
def unquoteChars : List Char → List Char
  | '%' :: a :: b :: rest =>
    match hexVal a, hexVal b with
    | some x, some y => Char.ofNat (16 * x + y) :: unquoteChars rest
    | _, _ => '%' :: unquoteChars (a :: b :: rest)
  | c :: rest => c :: unquoteChars rest
  | [] => []

/-- `urllib.parse.unquote` on strings (ASCII subset, see `unquoteChars`). -/
def pyUnquote (s : String) : String := ⟨unquoteChars s.data⟩

/-- `url.rpartition("/")[-1]` (query.py lines 99 and 119): the trailing path
segment of a URL; the whole string when it has no slash. -/
def rpartTail (url : String) : String := (rpartition url '/').2

/-- `str.startswith` via a structurally recursive character-list check. -/
def strStarts (s pre : String) : Bool := pre.data.isPrefixOf s.data

/-- `str.endswith` via a structurally recursive character-list check. -/
def strEnds (s suf : String) : Bool := suf.data.isSuffixOf s.data

/-- `PurePosixPath` joining, `str(a / b)`, for the directory shapes this
program uses: a second component that is absolute replaces the first
(pathlib semantics), a first component of "." or "./" normalizes away, and
otherwise the components are joined with a single "/". -/
def pyJoin (a b : String) : String :=
  if strStarts b "/" then b
  else if a = "." ∨ a = "./" then b
  else if strEnds a "/" then a ++ b
  else a ++ "/" ++ b

/-- The scratch directory, `tempfile.gettempdir()` on a POSIX host. -/
def tmpDir : String := "/tmp"

/-- Modelled filesystem for the download engine: an insertion-ordered
association list from path to file content (a list of byte values). -/
abbrev FS := List (String × List Nat)

/-- Content stored at a path, `none` when the path does not exist. -/
def fsGet (fs : FS) (p : String) : Option (List Nat) :=
  (fs.find? (fun e => e.1 == p)).map Prod.snd

/-- Remove the file at `p` (the source side of `Path.replace`). -/
def fsErase (fs : FS) (p : String) : FS :=
  fs.filter (fun e => !(e.1 == p))

/-- Create or truncate-and-overwrite the file at `p` with `content`; the
most recent write sits at the head, and lookups go through `fsGet`. -/
def fsSet (fs : FS) (p : String) (content : List Nat) : FS :=
  (p, content) :: fsErase fs p

/-- Append a chunk of bytes to the (existing) file at `p`. -/
def fsAppend (fs : FS) (p : String) (chunk : List Nat) : FS :=
  fsSet fs p (((fsGet fs p).getD []) ++ chunk)

/-- The list of existing paths, the domain `Path(...).exists()` ranges over. -/
def fsPaths (fs : FS) : List String := fs.map Prod.fst

/-- A download response stream: the chunks `iter_content` yields before
either finishing normally (`err = false`) or raising a network/disk error
mid-stream (`err = true`). -/
structure DStream where
  chunks : List (List Nat)
  err : Bool

/-- `Query.download_file` (query.py lines 108-133): remember the
destination, derive the temp-file name, open the temp file (truncating),
write each yielded chunk, and only after a complete stream rename the temp
file onto the destination.  A mid-stream error escapes before the rename;
the progress-bar bookkeeping (`content-length`, `track`) is display-only and
not modelled.  Returns the resulting filesystem and `some` exception name
when one escapes. -/
def download_file (fs : FS) (stream : DStream) (url : String)
    (filename : Option String) : FS × Option String :=
  let destination := filename
  let fname := match filename with
    | none => rpartTail url
    | some f => f
  let temp := pyJoin tmpDir fname
  let fs1 := fsSet fs temp []
  let fs2 := stream.chunks.foldl (fun acc ch => fsAppend acc temp ch) fs1
  if stream.err then
    (fs2, some "StreamError")
  else
    match destination with
    | none => (fs2, some "TypeError")
    | some dest =>
      let content := (fsGet fs2 temp).getD []
      (fsSet (fsErase fs2 temp) dest content, none)

/-- The destination filename computed by `Query.download_comics`
(query.py lines 99-100): percent-decode the URL's trailing path segment,
join it to the download directory, and uniquify with `create_file_name`. -/
def destFileName (fs : FS) (dpath url : String) : String :=
  create_file_name (fsPaths fs) (pyJoin dpath (pyUnquote (rpartTail url)))

/-- `Query.download_comics` (query.py lines 89-106): iterate the resolved
links in order; a `_MEDIAFIRE_`-marked link is only reported, not fetched;
otherwise compute the destination name and run `download_file`.  There is no
per-task exception handler, so an exception from `download_file` propagates
and ends the whole loop. -/
def download_comics (fs : FS) (dpath : String) :
    List (String × String × DStream) → FS × Option String
  | [] => (fs, none)
  | (url, _, stream) :: rest =>
    if strStarts url "_MEDIAFIRE_" then
      download_comics fs dpath rest
    else
      let fn := destFileName fs dpath url
      match download_file fs stream url (some fn) with
      | (fs1, none) => download_comics fs1 dpath rest
      | (fs1, some e) => (fs1, some e)

/-- An anchor tag in a search-result post: `(href, text)`. -/
abbrev Tag := String × String

/-- A search-result post (`h1.post-title`): its anchor tags. -/
abbrev Post := List Tag

/-- One fetched search-results page: its posts. -/
abbrev PageDoc := List Post

/-- The insertion-ordered url-to-title maps `page_links` / `comic_links`
(Python `dict`): updating an existing key keeps its position and the
length, a fresh key is appended. -/
abbrev OMap := List (String × String)

/-- `d[k] = v` on a Python dict modelled as an ordered association list. -/
def omInsert (m : OMap) (k v : String) : OMap :=
  if m.any (fun e => e.1 == k) then
    m.map (fun e => if e.1 == k then (k, v) else e)
  else
    m ++ [(k, v)]

/-- Body of the tag loop of `Query.find_pages` (query.py lines 47-51): skip
when the desired number of results is nonzero and already reached, otherwise
record the tag. -/
def procTag (desired : Nat) (m : OMap) (t : Tag) : OMap :=
  if desired ≠ 0 ∧ m.length = desired then m else omInsert m t.1 t.2

/-- The post loop of `Query.find_pages` (query.py lines 45-51). -/
def procPosts (desired : Nat) (m : OMap) (posts : PageDoc) : OMap :=
  posts.foldl (fun acc post => post.foldl (procTag desired) acc) m

/-- The value of the Python local `response` after a `try`-guarded fetch:
a successful fetch rebinds it, a raised request exception leaves it as it
was (unbound on the first iteration). -/
def staleResp {α : Type} (r : Except Unit α) (resp : Option α) : Option α :=
  match r with
  | .ok doc => some doc
  | .error _ => resp

/-- The `while` loop of `Query.find_pages` (query.py lines 29-51), with the
fetch modelled as an oracle from page number to either a parsed document or
a raised request exception.  The Python local `response` starts unbound
(`none`); a fetch error only prints, leaving `response` as it was, after
which `response.text` either raises `UnboundLocalError` (first iteration) or
reparses the stale previous document.  Fuel exhaustion returns the map
accumulated so far. -/
def findPagesLoop (fetch : Nat → Except Unit PageDoc) (desired : Nat) :
    Nat → Nat → Option PageDoc → OMap → Except String OMap
  | 0, _, _, m => .ok m
  | fuel + 1, page, resp, m =>
    if desired = 0 ∨ m.length < desired then
      let page1 := page + 1
      let resp1 := staleResp (fetch page1) resp
      match resp1 with
      | none => .error "UnboundLocalError"
      | some posts =>
        if posts.length = 0 then .ok m
        else findPagesLoop fetch desired fuel page1 resp1 (procPosts desired m posts)
    else .ok m

/-- `Query.find_pages` (query.py lines 24-53): page numbers start at 1,
`page_links` starts empty, `response` starts unbound. -/
def find_pages (fetch : Nat → Except Unit PageDoc) (desired fuel : Nat) :
    Except String OMap :=
  findPagesLoop fetch desired fuel 0 none []

/-- What the link resolver reads out of one hosting page's document:
the first `a[title="Download Now"]`, every `a` with text `Main Server`, and
the first `a[title="MEDIAFIRE"]` (query.py lines 74-76). -/
structure LinkDoc where
  native : Option String
  mainServer : List String
  mediafire : Option String

/-- The per-page link recording of `Query.get_download_links`
(query.py lines 78-87), as the list of `(key, title)` insertions it
performs, mirroring the source's `if not native and not main / elif native /
elif main` branch structure. -/
def pageEntries (doc : LinkDoc) (title : String) : List (String × String) :=
  if doc.native.isNone ∧ doc.mainServer = [] then
    match doc.mediafire with
    | some href => [("_MEDIAFIRE_" ++ href, title)]
    | none => []
  else
    match doc.native with
    | some href => [(href, title)]
    | none => doc.mainServer.map (fun h => (h, title))

/-- Restatement of the claimed priority order in the spec's own words
(spec section 4.4): native first, else one entry per main-server link, else
the marked mediafire entry, else nothing.  Used only to compare against
`pageEntries`, which is translated from the source. -/
def specPriority (doc : LinkDoc) (title : String) : List (String × String) :=
  match doc.native with
  | some href => [(href, title)]
  | none =>
    if doc.mainServer ≠ [] then
      doc.mainServer.map (fun h => (h, title))
    else
      match doc.mediafire with
      | some href => [("_MEDIAFIRE_" ++ href, title)]
      | none => []

/-- The loop of `Query.get_download_links` (query.py lines 65-87), with the
same unbound-or-stale `response` behaviour on fetch errors as
`findPagesLoop`. -/
def gdlLoop (fetch : String → Except Unit LinkDoc) :
    List (String × String) → Option LinkDoc → OMap → Except String OMap
  | [], _, m => .ok m
  | (url, title) :: rest, resp, m =>
    let resp1 := staleResp (fetch url) resp
    match resp1 with
    | none => .error "UnboundLocalError"
    | some doc =>
      gdlLoop fetch rest resp1
        ((pageEntries doc title).foldl (fun acc e => omInsert acc e.1 e.2) m)

/-- `Query.get_download_links` (query.py lines 55-87). -/
def get_download_links (fetch : String → Except Unit LinkDoc)
    (pageLinks : List (String × String)) : Except String OMap :=
  gdlLoop fetch pageLinks none []

/-- A search result as the spec's Page Discovery sees it:
url, title and publish date (encoded as yyyymmdd, so `<` is date order). -/
structure SpecResult where
  url : String
  title : String
  published : Nat
deriving DecidableEq

/-- Modelled from the spec: the accumulation step of the date-aware Page
Discovery (spec section 4.3).  Excess results beyond `desired` are simply
not added, and the map enforces URL uniqueness. -/
def specAdd (desired : Nat) (m : List SpecResult) (r : SpecResult) :
    List SpecResult :=
  if desired ≠ 0 ∧ m.length = desired then m
  else if m.any (fun e => e.url == r.url) then m
  else m ++ [r]

/-- Modelled from the spec: scanning one page's results in native order
(spec section 4.3) — with a date cutoff set, the first result older than the
cutoff terminates discovery entirely (the returned flag). -/
def scanResults (cutoff : Option Nat) (desired : Nat) :
    List SpecResult → List SpecResult → List SpecResult × Bool
  | [], m => (m, false)
  | r :: rs, m =>
    match cutoff with
    | some c =>
      if r.published < c then (m, true)
      else scanResults cutoff desired rs (specAdd desired m r)
    | none => scanResults cutoff desired rs (specAdd desired m r)

/-- Modelled from the spec: the date-aware variant of `Query.find_pages` is
absent from src/query.py (its caller, main.py line 231, passes
`date=args.date`); modelled from spec section 4.3: iterate page numbers from
1, stop on a page with zero results, on the cutoff flag, or once the desired
count is reached. -/
def findPagesDateLoop (pages : Nat → List SpecResult) (desired : Nat)
    (cutoff : Option Nat) : Nat → Nat → List SpecResult → List SpecResult
  | 0, _, m => m
  | fuel + 1, page, m =>
    if desired ≠ 0 ∧ desired ≤ m.length then m
    else
      let rs := pages (page + 1)
      if rs.isEmpty then m
      else
        let step := scanResults cutoff desired rs m
        if step.2 then step.1
        else findPagesDateLoop pages desired cutoff fuel (page + 1) step.1

/-- Modelled from the spec: date-aware Page Discovery entry point
(spec section 4.3). -/
def discover (pages : Nat → List SpecResult) (desired : Nat)
    (cutoff : Option Nat) (fuel : Nat) : List SpecResult :=
  findPagesDateLoop pages desired cutoff fuel 0 []

/-- Outcome of `is_date` (main.py lines 73-211), called as the date resolver
with `return_datetime=True`: a successfully constructed calendar date, the
`return False` outcome for invalid dates, or a Python exception escaping the
function (named by its class). -/
inductive DRes where
  | date (y m d : Nat)
  | bool_false
  | raise (e : String)
deriving DecidableEq

/-- Python `str.isdigit()` restricted to ASCII digits (the only characters
the inputs of this development contain): nonempty and all digits. -/
def pyIsDigit (s : String) : Bool :=
  s.data ≠ [] && s.data.all Char.isDigit

/-- Numeric value of an all-digit string. -/
def strVal (s : String) : Nat :=
  s.data.foldl (fun a c => a * 10 + (c.toNat - 48)) 0

/-- Python `int(s)` on the token shapes this program produces: an all-digit
string converts, anything else (including `""` and month names) raises
`ValueError`.  Signs, underscores and surrounding whitespace are not
modelled. -/
def pyInt (s : String) : Except String Nat :=
  if pyIsDigit s then .ok (strVal s) else .error "ValueError"

/-- Python truthiness of `date.get(key)` for an optional integer field:
missing and zero are both falsy. -/
def truthy : Option Nat → Bool
  | none => false
  | some v => v != 0

/-- The mutable `date` dict of `is_date`: the year / month / day entries. -/
structure DSt where
  year : Option Nat
  month : Option Nat
  day : Option Nat

/-- Python `list.pop()` (last element): `IndexError` on an empty list. -/
def popLastAux : List String → Option (String × List String)
  | [] => none
  | [x] => some (x, [])
  | x :: xs =>
    match popLastAux xs with
    | some (a, r) => some (a, x :: r)
    | none => none

/-- `list.pop()` in the `Except` error model. -/
def epopLast (l : List String) : Except String (String × List String) :=
  match popLastAux l with
  | some p => .ok p
  | none => .error "IndexError"

/-- `list.pop(i)` in the `Except` error model. -/
def epopIdx (l : List String) (i : Nat) : Except String (String × List String) :=
  if h : i < l.length then .ok (l.get ⟨i, h⟩, l.eraseIdx i)
  else .error "IndexError"

/-- `all(num == date_split[0] for num in date_split)` (main.py line 112). -/
def allEqHead : List String → Bool
  | [] => true
  | x :: xs => (x :: xs).all (fun n => n == x)

/-- `len([num for num in ds if num.isdigit() and 32 > int(num) > 12])`
(main.py lines 121 and 133). -/
def countDayLike (ds : List String) : Nat :=
  (ds.filter (fun n => pyIsDigit n && decide (12 < strVal n) &&
    decide (strVal n < 32))).length

/-- `len([num for num in ds if num.isdigit() and int(num) < 13])`
(main.py line 126). -/
def countLT13 (ds : List String) : Nat :=
  (ds.filter (fun n => pyIsDigit n && decide (strVal n < 13))).length

/-- Python string `<` (lexicographic by code point) on character lists. -/
def lexLt : List Char → List Char → Bool
  | [], [] => false
  | [], _ :: _ => true
  | _ :: _, [] => false
  | a :: as, b :: bs =>
    if a.toNat < b.toNat then true
    else if a.toNat = b.toNat then lexLt as bs
    else false

/-- Index scan for `ds.index(max(ds))`: the first index holding the
lexicographically greatest string (Python `max` keeps the first maximum and
`index` finds its first occurrence). -/
def pyMaxIdxAux : List String → Nat → Nat → String → Nat
  | [], _, best, _ => best
  | x :: xs, i, best, bv =>
    if lexLt bv.data x.data then pyMaxIdxAux xs (i + 1) i x
    else pyMaxIdxAux xs (i + 1) best bv

/-- `ds.index(max(ds))`; `none` models the `ValueError` of `max([])`. -/
def pyMaxIdx : List String → Option Nat
  | [] => none
  | x :: xs => some (pyMaxIdxAux xs 1 0 x)

/-- Python `str.lower()` (ASCII). -/
def pyLower (s : String) : String := ⟨s.data.map Char.toLower⟩

/-- The month-name dict of main.py lines 140-164.  Note the source has no
full name for May; "may" appears only among the three-letter forms. -/
def monthsGet (s : String) : Option Nat :=
  List.lookup s
    [("january", 1), ("february", 2), ("march", 3), ("april", 4),
     ("june", 6), ("july", 7), ("august", 8), ("september", 9),
     ("october", 10), ("november", 11), ("december", 12),
     ("jan", 1), ("feb", 2), ("mar", 3), ("apr", 4), ("may", 5),
     ("jun", 6), ("jul", 7), ("aug", 8), ("sep", 9), ("oct", 10),
     ("nov", 11), ("dec", 12)]

/-- The year-determination loop of `is_date` (main.py lines 103-107):
the first all-digit token strictly between 31 and 9999 becomes the year and
is removed; `break`.  Fuel equals the list length at call, which bounds the
iteration count, and the fuel-0 return coincides with normal loop exit. -/
def yearLoop : Nat → Nat → List String → DSt → List String × DSt
  | 0, _, ds, st => (ds, st)
  | fuel + 1, i, ds, st =>
    if h : i < ds.length then
      let part := ds.get ⟨i, h⟩
      if pyIsDigit part ∧ 31 < strVal part ∧ strVal part < 9999 then
        (ds.eraseIdx i, { st with year := some (strVal part) })
      else yearLoop fuel (i + 1) ds st
    else (ds, st)

/-- The day/month-determination loop of `is_date` (main.py lines 110-137),
including its unguarded `int(...)` calls, which raise `ValueError` on
non-numeric tokens such as month names. -/
def dmLoop : Nat → Nat → List String → DSt → Except String (List String × DSt)
  | 0, _, ds, st => .ok (ds, st)
  | fuel + 1, i, ds, st =>
    if h : i < ds.length then
      let part := ds.get ⟨i, h⟩
      if allEqHead ds then do
        let p1 ← epopLast ds
        let dayv ← pyInt p1.1
        let p2 ← epopLast p1.2
        let monv ← pyInt p2.1
        if truthy st.year then
          .ok (p2.2, { st with day := some dayv, month := some monv })
        else do
          let p3 ← epopLast p2.2
          let yv ← pyInt p3.1
          .ok (p3.2, { st with day := some dayv, month := some monv,
                               year := some yv })
      else if truthy st.year then
        if pyIsDigit part ∧ 12 < strVal part ∧ strVal part < 32 ∧
            countDayLike ds = 1 then do
          let p1 ← epopIdx ds i
          let dayv ← pyInt p1.1
          let p2 ← epopLast p1.2
          let monv ← pyInt p2.1
          .ok (p2.2, { st with day := some dayv, month := some monv })
        else if countLT13 ds = 2 then do
          let p1 ← epopLast ds
          let dayv ← pyInt p1.1
          let p2 ← epopLast p1.2
          let monv ← pyInt p2.1
          .ok (p2.2, { st with day := some dayv, month := some monv })
        else dmLoop fuel (i + 1) ds st
      else
        if 2 ≤ countDayLike ds then do
          let p1 ← epopIdx ds 1
          let monv ← pyInt p1.1
          let j ← match pyMaxIdx p1.2 with
            | some j => Except.ok j
            | none => Except.error "ValueError"
          let p2 ← epopIdx p1.2 j
          let yv ← pyInt p2.1
          let p3 ← epopLast p2.2
          let dayv ← pyInt p3.1
          .ok (p3.2, { st with month := some monv, year := some yv,
                               day := some dayv })
        else dmLoop fuel (i + 1) ds st
    else .ok (ds, st)

/-- The month-determination loop of `is_date` (main.py lines 165-177):
break if the month is known; a non-digit token matching a month name is
consumed (and the loop continues); else, with year and day known, the token
at the current index is taken as month via `int(...)`. -/
def monthLoop : Nat → Nat → List String → DSt → Except String (List String × DSt)
  | 0, _, ds, st => .ok (ds, st)
  | fuel + 1, i, ds, st =>
    if h : i < ds.length then
      let part := ds.get ⟨i, h⟩
      if truthy st.month then .ok (ds, st)
      else if ¬pyIsDigit part ∧ (monthsGet (pyLower part)).isSome then
        monthLoop fuel (i + 1) (ds.eraseIdx i)
          { st with month := monthsGet (pyLower part) }
      else if truthy st.year ∧ truthy st.day ∧ ds ≠ [] then do
        let p1 ← epopIdx ds i
        let mv ← pyInt p1.1
        .ok (p1.2, { st with month := some mv })
      else monthLoop fuel (i + 1) ds st
    else .ok (ds, st)

/-- The "revisit the day" loop of `is_date` (main.py lines 180-184).  The
source's comment says day, but the body assigns `date["month"]`; the
embedding keeps the source's behaviour. -/
def dayRevisit : Nat → Nat → List String → DSt → Except String (List String × DSt)
  | 0, _, ds, st => .ok (ds, st)
  | fuel + 1, i, ds, st =>
    if i < ds.length then
      if truthy st.year ∧ truthy st.month ∧ ds ≠ [] then do
        let p1 ← epopIdx ds i
        let mv ← pyInt p1.1
        .ok (p1.2, { st with month := some mv })
      else dayRevisit fuel (i + 1) ds st
    else .ok (ds, st)

/-- The "revisit the year" loop of `is_date` (main.py lines 187-189); it has
no `break`, so a later digit token overwrites the year again. -/
def yearRevisit : Nat → Nat → List String → DSt → List String × DSt
  | 0, _, ds, st => (ds, st)
  | fuel + 1, i, ds, st =>
    if h : i < ds.length then
      let part := ds.get ⟨i, h⟩
      if truthy st.month ∧ truthy st.day ∧ pyIsDigit part then
        yearRevisit fuel (i + 1) (ds.eraseIdx i)
          { st with year := some (strVal part) }
      else yearRevisit fuel (i + 1) ds st
    else (ds, st)

/-- Gregorian leap year, as Python `datetime` uses. -/
def isLeap (y : Nat) : Bool :=
  y % 4 = 0 && (y % 100 ≠ 0 || y % 400 = 0)

/-- Days in a month of the proleptic Gregorian calendar. -/
def daysInMonth (y m : Nat) : Nat :=
  if m = 2 then (if isLeap y then 29 else 28)
  else if m = 4 ∨ m = 6 ∨ m = 9 ∨ m = 11 then 30
  else 31

/-- Validity of `datetime(y, m, d)` in Python (`MINYEAR = 1`,
`MAXYEAR = 9999`). -/
def datetimeValid (y m d : Nat) : Bool :=
  1 ≤ y && y ≤ 9999 && 1 ≤ m && m ≤ 12 && 1 ≤ d && d ≤ daysInMonth y m

/-- The final `try` block of `is_date` (main.py lines 199-211): each field
falls back to the original token at its position (day-month-year order),
`int(...)` errors and invalid dates are caught and yield `False`. -/
def finalize (st : DSt) (o0 o1 o2 : String) : DRes :=
  let comp : Except String (Nat × Nat × Nat) := do
    let y ← match st.year with
      | some v => if v ≠ 0 then Except.ok v else pyInt o2
      | none => pyInt o2
    let mo ← match st.month with
      | some v => if v ≠ 0 then Except.ok v else pyInt o1
      | none => pyInt o1
    let dd ← match st.day with
      | some v => if v ≠ 0 then Except.ok v else pyInt o0
      | none => pyInt o0
    if datetimeValid y mo dd then Except.ok (y, mo, dd)
    else Except.error "ValueError"
  match comp with
  | .ok t => DRes.date t.1 t.2.1 t.2.2
  | .error _ => DRes.bool_false

/-- The separator normalization of `is_date` (main.py lines 89-90): each of
`/ . - \\` is replaced by `-`. -/
def replaceSeps (s : String) : String :=
  ⟨s.data.map (fun c =>
    if c = '/' ∨ c = '.' ∨ c = '-' ∨ c = '\\' then '-' else c)⟩

/-- Split a character list on a separator, keeping empty fields, exactly as
Python `str.split(sep)` does. -/
def splitOnChar (sep : Char) : List Char → List (List Char)
  | [] => [[]]
  | x :: xs =>
    match splitOnChar sep xs with
    | [] => [[]]
    | h :: t => if x = sep then [] :: h :: t else (x :: h) :: t

/-- `date.split("-")` (main.py line 93). -/
def dashSplit (s : String) : List String :=
  (splitOnChar '-' s.data).map (fun l => ⟨l⟩)

/-- `date.split()` (main.py line 95), modelled for space-separated input:
split on spaces and drop empty fields (other Unicode whitespace is not
modelled). -/
def wsSplit (s : String) : List String :=
  ((splitOnChar ' ' s.data).filter (fun l => l ≠ [])).map (fun l => ⟨l⟩)

/-- The tokenization of `is_date` (main.py lines 89-95): after separator
normalization, split on `-` when one is present, else on whitespace when a
space is present; otherwise `date_split` is never assigned and using it
raises `UnboundLocalError` (`none`). -/
def sepSplit (s : String) : Option (List String) :=
  let t := replaceSeps s
  if t.data.contains '-' then some (dashSplit t)
  else if t.data.contains ' ' then some (wsSplit t)
  else none

/-- `is_date` (main.py lines 73-211) as the date resolver (the
`return_datetime` argument-validation prologue, lines 80-87, is identity for
the boolean arguments the program passes): tokenize, require exactly three
tokens, run the heuristic year / day-month / month / revisit loops, expand
two-digit years with a "20" prefix, and construct the date inside the final
`try`. -/
def is_date (s : String) : DRes :=
  match sepSplit s with
  | none => DRes.raise "UnboundLocalError"
  | some ds0 =>
    if ds0.length ≠ 3 then DRes.bool_false
    else
      let o0 := ds0.getD 0 ""
      let o1 := ds0.getD 1 ""
      let o2 := ds0.getD 2 ""
      let r1 := yearLoop ds0.length 0 ds0 ⟨none, none, none⟩
      let comp : Except String DRes := do
        let r2 ← dmLoop r1.1.length 0 r1.1 r1.2
        let r3 ← monthLoop r2.1.length 0 r2.1 r2.2
        let r4 ← dayRevisit r3.1.length 0 r3.1 r3.2
        let r5 := yearRevisit r4.1.length 0 r4.1 r4.2
        let o2f := if o2.length = 2 then "20" ++ o2 else o2
        let stf ← match r5.2.year with
          | some y =>
            if y ≠ 0 ∧ (Nat.repr y).length = 2 then do
              let yv ← pyInt ("20" ++ Nat.repr y)
              pure { r5.2 with year := some yv }
            else pure r5.2
          | none => pure r5.2
        pure (finalize stf o0 o1 o2f)
      match comp with
      | .ok r => r
      | .error e => DRes.raise e

/-! ## Concrete scenario data used by claim theorems -/

/-- Oracle for the cutoff scenario: page 1 carries the newest-first dates
2023-06-01, 2023-05-01, 2022-12-01; page 2 carries 2023-04-01. -/
def c1pages : Nat → List SpecResult := fun p =>
  if p = 1 then
    [⟨"u1", "t1", 20230601⟩, ⟨"u2", "t2", 20230501⟩, ⟨"u3", "t3", 20221201⟩]
  else if p = 2 then [⟨"u4", "t4", 20230401⟩]
  else []

/-- Fetch oracle for the desired-count scenario: two pages of two results
each, then exhaustion. -/
def c6fetch : Nat → Except Unit PageDoc := fun p =>
  if p = 1 then .ok [[("u1", "t1"), ("u2", "t2")]]
  else if p = 2 then .ok [[("u3", "t3"), ("u4", "t4")]]
  else .ok []

/-- Batch for the interrupted-download scenario: the first task's stream
errors mid-transfer, the second task's stream is fine. -/
def c3Batch : List (String × String × DStream) :=
  [("http://h/a.cbz", "A", ⟨[[1]], true⟩),
   ("http://h/b.cbz", "B", ⟨[[2]], false⟩)]

/-- Running the interrupted-download batch against an empty filesystem with
download directory "out". -/
def c3Run : FS × Option String := download_comics [] "out" c3Batch

/-! ## Helper lemmas -/

theorem strDataAppend (a b : String) : (a ++ b).data = a.data ++ b.data := rfl

theorem bsNorm_no_bs (p : String) : '\\' ∉ (bsNorm p).data := by
  simp only [bsNorm, List.mem_map]
  rintro ⟨c, -, hc⟩
  by_cases h : c = '\\' <;> simp [h] at hc

theorem mapNoBs (l : List Char) (h : '\\' ∉ l) :
    l.map (fun c => if c = '\\' then '/' else c) = l := by
  induction l with
  | nil => rfl
  | cons x xs ih =>
    simp only [List.mem_cons, not_or] at h
    have hx : x ≠ '\\' := fun hx => h.1 hx.symm
    simp [List.map_cons, hx, ih h.2]

theorem bsNorm_eq_self (p : String) (h : '\\' ∉ p.data) : bsNorm p = p := by
  cases p with
  | mk l =>
    simp only [bsNorm]
    exact congrArg String.mk (mapNoBs l h)

theorem digitChar_no_bs : ∀ m : Nat, Nat.digitChar m ≠ '\\'
  | 0 => by decide
  | 1 => by decide
  | 2 => by decide
  | 3 => by decide
  | 4 => by decide
  | 5 => by decide
  | 6 => by decide
  | 7 => by decide
  | 8 => by decide
  | 9 => by decide
  | 10 => by decide
  | 11 => by decide
  | 12 => by decide
  | 13 => by decide
  | 14 => by decide
  | 15 => by decide
  | (_ + 16) => by
    show ('*' : Char) ≠ '\\'
    decide

theorem toDigitsCore_no_bs :
    ∀ (f n : Nat) (ds : List Char), '\\' ∉ ds →
      '\\' ∉ Nat.toDigitsCore 10 f n ds := by
  intro f
  induction f with
  | zero => intro n ds h; simpa [Nat.toDigitsCore] using h
  | succ f ih =>
    intro n ds h
    simp only [Nat.toDigitsCore]
    split
    case isTrue =>
      simp only [List.mem_cons, not_or]
      exact ⟨fun hc => digitChar_no_bs _ hc.symm, h⟩
    case isFalse =>
      apply ih
      simp only [List.mem_cons, not_or]
      exact ⟨fun hc => digitChar_no_bs _ hc.symm, h⟩

theorem repr_no_bs (n : Nat) : '\\' ∉ (Nat.repr n).data := by
  simp only [Nat.repr, Nat.toDigits]
  exact toDigitsCore_no_bs _ _ _ (by simp)

theorem rpartAux_chars (c : Char) :
    ∀ (l pre post : List Char), rpartAux c l = some (pre, post) →
      (∀ x ∈ pre, x ∈ l) ∧ (∀ x ∈ post, x ∈ l) := by
  intro l
  induction l with
  | nil => intro pre post h; simp [rpartAux] at h
  | cons y ys ih =>
    intro pre post h
    cases h2 : rpartAux c ys with
    | some pr =>
      obtain ⟨a, b⟩ := pr
      simp only [rpartAux, h2, Option.some.injEq, Prod.mk.injEq] at h
      obtain ⟨hpre, hpost⟩ := h
      subst hpre; subst hpost
      obtain ⟨ha, hb⟩ := ih a b h2
      constructor
      · intro x hx
        rcases List.mem_cons.mp hx with hx | hx
        · simp [hx]
        · exact List.mem_cons_of_mem _ (ha x hx)
      · intro x hx
        exact List.mem_cons_of_mem _ (hb x hx)
    | none =>
      simp only [rpartAux, h2] at h
      by_cases hy : y = c
      · rw [if_pos hy] at h
        simp only [Option.some.injEq, Prod.mk.injEq] at h
        obtain ⟨hpre, hpost⟩ := h
        subst hpre; subst hpost
        constructor
        · intro x hx; simp at hx
        · intro x hx; exact List.mem_cons_of_mem _ hx
      · rw [if_neg hy] at h
        simp at h

theorem rpartition_chars_left (s : String) (c : Char) (x : Char)
    (hx : x ∈ (rpartition s c).1.data) : x ∈ s.data := by
  unfold rpartition at hx
  cases h : rpartAux c s.data with
  | some pr =>
    rw [h] at hx
    exact (rpartAux_chars c s.data pr.1 pr.2 (by rw [h])).1 x hx
  | none =>
    rw [h] at hx
    simp at hx

theorem rpartition_chars_right (s : String) (c : Char) (x : Char)
    (hx : x ∈ (rpartition s c).2.data) : x ∈ s.data := by
  unfold rpartition at hx
  cases h : rpartAux c s.data with
  | some pr =>
    rw [h] at hx
    exact (rpartAux_chars c s.data pr.1 pr.2 (by rw [h])).2 x hx
  | none =>
    rw [h] at hx
    exact hx

theorem candName_no_bs (d s suf : String) (num : Nat)
    (hd : '\\' ∉ d.data) (hs : '\\' ∉ s.data) (hsuf : '\\' ∉ suf.data) :
    '\\' ∉ (candName d s suf num).data := by
  simp only [candName, strDataAppend, List.mem_append, not_or]
  refine ⟨⟨⟨⟨⟨hd, hs⟩, by decide⟩, repr_no_bs num⟩, by decide⟩, hsuf⟩

theorem probeLoop_no_bs (fs : List String) (d s suf : String)
    (hd : '\\' ∉ d.data) (hs : '\\' ∉ s.data) (hsuf : '\\' ∉ suf.data) :
    ∀ (fuel num : Nat), '\\' ∉ (probeLoop fs d s suf fuel num).data := by
  intro fuel
  induction fuel with
  | zero => intro num; exact candName_no_bs d s suf num hd hs hsuf
  | succ fuel ih =>
    intro num
    simp only [probeLoop]
    split
    · exact ih (num + 1)
    · exact candName_no_bs d s suf num hd hs hsuf

theorem create_file_name_not_exists (fs : List String) (p : String)
    (h : fsHas fs (bsNorm p) = false) : create_file_name fs p = bsNorm p := by
  simp only [create_file_name, h]
  rfl

theorem dirSplitOf_left_no_bs (f : String) (hf : '\\' ∉ f.data) :
    '\\' ∉ (dirSplitOf f).1.data := by
  unfold dirSplitOf
  split
  · intro hx
    rw [strDataAppend] at hx
    rcases List.mem_append.mp hx with hx | hx
    · exact hf (rpartition_chars_left f '/' _ hx)
    · simp at hx
  · simp

theorem dirSplitOf_right_no_bs (f : String) (hf : '\\' ∉ f.data) :
    '\\' ∉ (dirSplitOf f).2.data := by
  unfold dirSplitOf
  split
  · intro hx
    exact hf (rpartition_chars_right f '/' _ hx)
  · exact hf

theorem stemSplitOf_left_no_bs (r : String) (hr : '\\' ∉ r.data) :
    '\\' ∉ (stemSplitOf r).1.data := by
  unfold stemSplitOf
  split
  · intro hx
    exact hr (rpartition_chars_left r '.' _ hx)
  · exact hr

theorem stemSplitOf_right_no_bs (r : String) (hr : '\\' ∉ r.data) :
    '\\' ∉ (stemSplitOf r).2.data := by
  unfold stemSplitOf
  split
  · intro hx
    rw [strDataAppend] at hx
    rcases List.mem_append.mp hx with hx | hx
    · simp at hx
    · exact hr (rpartition_chars_right r '.' _ hx)
  · simp

theorem create_file_name_no_bs (fs : List String) (p : String) :
    '\\' ∉ (create_file_name fs p).data := by
  have hf := bsNorm_no_bs p
  simp only [create_file_name]
  by_cases h : fsHas fs (bsNorm p)
  · rw [if_pos h]
    have h2 := dirSplitOf_right_no_bs (bsNorm p) hf
    exact probeLoop_no_bs fs _ _ _ (dirSplitOf_left_no_bs (bsNorm p) hf)
      (stemSplitOf_left_no_bs _ h2) (stemSplitOf_right_no_bs _ h2) _ _
  · rw [if_neg h]
    exact hf

theorem countNoRemove (l : List Char) (c : Char) (hc : c ≠ '\\') :
    l.count c ≤ (l.map (fun x => if x = '\\' then '/' else x)).count c := by
  induction l with
  | nil => simp
  | cons x xs ih =>
    simp only [List.map_cons, List.count_cons]
    have hstep : (if (x == c) = true then 1 else 0) ≤
        (if ((if x = '\\' then '/' else x) == c) = true then 1 else 0) := by
      by_cases hx : x = '\\'
      · subst hx
        have hb : ('\\' == c) = false := beq_eq_false_iff_ne.mpr (Ne.symm hc)
        simp [hb]
      · simp [hx]
    exact Nat.add_le_add ih hstep

/-! ## Claim theorems -/

/-- Claim C9, counterexample: the path "a\b.txt" does not exist on the empty
filesystem, yet `create_file_name` does not return it unchanged (it returns
the backslash-normalized "a/b.txt"), refuting `uniquify(p) == p` for
non-existing `p` in general. -/
theorem c9_counterexample :
    fsHas [] "a\\b.txt" = false ∧
    create_file_name [] "a\\b.txt" ≠ "a\\b.txt" := by
  exact ⟨rfl, by decide⟩

/-- Claim C9, amended: for every path whose backslash-normalized form does
not exist, `create_file_name` returns the normalized form; in particular it
returns the path itself unchanged whenever the path additionally contains no
backslash. -/
theorem c9_uniquify_nonexisting (fs : List String) (p : String)
    (h : fsHas fs (bsNorm p) = false) :
    create_file_name fs p = bsNorm p ∧
    ('\\' ∉ p.data → create_file_name fs p = p) := by
  refine ⟨create_file_name_not_exists fs p h, fun hbs => ?_⟩
  rw [create_file_name_not_exists fs p h, bsNorm_eq_self p hbs]

/-- Claim C9, witness: the amended theorem applied to the non-existing,
backslash-free path "a.txt" on the empty filesystem. -/
theorem c9_witness : create_file_name [] "a.txt" = "a.txt" :=
  (c9_uniquify_nonexisting [] "a.txt" rfl).2 (by decide)

/-- Claim C10: `create_file_name` first replaces every backslash with a
forward slash, so its return value never contains a backslash; in the
no-collision case it returns the backslash-normalized input. -/
theorem c10_no_backslash (fs : List String) (p : String) :
    '\\' ∉ (create_file_name fs p).data ∧
    (fsHas fs (bsNorm p) = false → create_file_name fs p = bsNorm p) :=
  ⟨create_file_name_no_bs fs p, create_file_name_not_exists fs p⟩

/-- Claim C10, witness: the theorem applied to the backslash-containing
path "x\y" on the empty filesystem, where the no-collision hypothesis holds
by evaluation. -/
theorem c10_witness :
    '\\' ∉ (create_file_name [] "x\\y").data ∧
    create_file_name [] "x\\y" = bsNorm "x\\y" :=
  ⟨(c10_no_backslash [] "x\\y").1, (c10_no_backslash [] "x\\y").2 rfl⟩

/-- Claim C4, counterexample: for the URL "http://x/a%3Fb.cbz" the computed
destination filename is "out/a?b.cbz" — the '?' from the percent-decoded
trailing segment is NOT removed, refuting the claimed removal of the illegal
character set. -/
theorem c4_counterexample :
    destFileName [] "out" "http://x/a%3Fb.cbz" = "out/a?b.cbz" ∧
    '?' ∈ (destFileName [] "out" "http://x/a%3Fb.cbz").data := by
  exact ⟨rfl, by decide⟩

/-- Claim C4, amended: the destination filename is the percent-decoded
trailing URL segment joined to the download directory; no character of the
illegal set is removed — `create_file_name` only replaces each backslash
with a forward slash (every other character's occurrence count is
preserved or grown) — before collision-uniquification. -/
theorem c4_filename_not_sanitized (fs : FS) (dpath url : String)
    (h : fsHas (fsPaths fs)
      (bsNorm (pyJoin dpath (pyUnquote (rpartTail url)))) = false) :
    destFileName fs dpath url = bsNorm (pyJoin dpath (pyUnquote (rpartTail url))) ∧
    (∀ c, c ≠ '\\' →
      (pyJoin dpath (pyUnquote (rpartTail url))).data.count c ≤
        (destFileName fs dpath url).data.count c) := by
  have h1 : destFileName fs dpath url =
      bsNorm (pyJoin dpath (pyUnquote (rpartTail url))) :=
    create_file_name_not_exists _ _ h
  refine ⟨h1, fun c hc => ?_⟩
  rw [h1]
  simpa [bsNorm] using
    countNoRemove (pyJoin dpath (pyUnquote (rpartTail url))).data c hc

/-- Claim C4, witness: the amended theorem applied to a concrete URL whose
decoded trailing segment contains a '?' on the empty filesystem. -/
theorem c4_witness :
    destFileName [] "out" "http://x/weird%3Fname.cbz" =
      bsNorm (pyJoin "out" (pyUnquote (rpartTail "http://x/weird%3Fname.cbz"))) :=
  (c4_filename_not_sanitized [] "out" "http://x/weird%3Fname.cbz" rfl).1

/-- Claim C2 (code bug): of the four literal date inputs, "2023-11-21",
"21/11/2023" and "21-11-23" all resolve to year 2023, month 11, day 21 and
return normally, but "21 Nov 2023" raises an uncaught ValueError — the
day/month branch executes `int(date_split.pop())` on the token "Nov"
(main.py line 123) — instead of resolving to the same date. -/
theorem c2_date_resolver_formats :
    is_date "2023-11-21" = DRes.date 2023 11 21 ∧
    is_date "21/11/2023" = DRes.date 2023 11 21 ∧
    is_date "21-11-23" = DRes.date 2023 11 21 ∧
    is_date "21 Nov 2023" = DRes.raise "ValueError" :=
  ⟨rfl, rfl, rfl, rfl⟩

/-- Claim C5 (code bug): a fetch error on the very first page leaves the
Python local `response` unbound, so the subsequent `response.text` raises
UnboundLocalError and aborts the whole query — in Page Discovery
(query.py lines 33-40) and in Link Resolution (query.py lines 66-73)
alike — instead of skipping the page and continuing. -/
theorem c5_first_fetch_error_aborts :
    find_pages (fun _ => Except.error ()) 0 5 =
      Except.error "UnboundLocalError" ∧
    get_download_links (fun _ => Except.error ()) [("u", "t")] =
      Except.error "UnboundLocalError" :=
  ⟨rfl, rfl⟩

/-- Claim C7: per discovered page, link resolution follows the fixed
mutually-exclusive priority — a native "Download Now" link alone, else one
entry per "Main Server" link, else a single MEDIAFIRE entry keyed with the
"_MEDIAFIRE_" marker, else nothing: the source's branch structure equals the
spec's priority order. -/
theorem c7_link_priority (doc : LinkDoc) (title : String) :
    pageEntries doc title = specPriority doc title := by
  obtain ⟨n, ms, mf⟩ := doc
  cases n <;> cases mf <;> cases ms <;> simp [pageEntries, specPriority]

/-- Claim C8, counterexample: the input "20231121" contains no separator,
so it does not split into three tokens; the resolver does not return False
for it but instead raises an uncaught UnboundLocalError, because
`date_split` is only assigned under the `-`/space membership tests
(main.py lines 92-95). -/
theorem c8_counterexample :
    sepSplit "20231121" = none ∧
    is_date "20231121" = DRes.raise "UnboundLocalError" ∧
    is_date "20231121" ≠ DRes.bool_false :=
  ⟨rfl, rfl, by decide⟩

/-- Claim C8, amended: for every input string in which the tokenizer finds a
separator (so `date_split` is assigned) but the split does not produce
exactly three tokens, the resolver returns False; and the impossible
calendar date "31-02-2023" also yields False (Feb 31 fails the final
`datetime` construction).  Inputs with no separator at all instead raise
UnboundLocalError. -/
theorem c8_malformed_dates :
    (∀ (s : String) (ts : List String), sepSplit s = some ts →
      ts.length ≠ 3 → is_date s = DRes.bool_false) ∧
    is_date "31-02-2023" = DRes.bool_false := by
  constructor
  · intro s ts h h3
    unfold is_date
    rw [h]
    simp [h3]
  · rfl

/-- Claim C8, witness: the amended theorem applied to the two-token input
"2023-11", whose split is evaluated by rfl and whose length is not 3. -/
theorem c8_witness : is_date "2023-11" = DRes.bool_false :=
  c8_malformed_dates.1 "2023-11" ["2023", "11"] rfl (by decide)

theorem omInsert_length_le (m : OMap) (k v : String) :
    (omInsert m k v).length ≤ m.length + 1 := by
  unfold omInsert
  split
  · simp
  · simp

theorem procTag_length_le {n : Nat} (hn : n ≠ 0) (m : OMap) (t : Tag)
    (h : m.length ≤ n) : (procTag n m t).length ≤ n := by
  unfold procTag
  by_cases he : n ≠ 0 ∧ m.length = n
  · rw [if_pos he]; exact h
  · rw [if_neg he]
    have hlt : m.length < n := by
      rcases Nat.lt_or_ge m.length n with h1 | h1
      · exact h1
      · exact absurd ⟨hn, Nat.le_antisymm h h1⟩ he
    calc (omInsert m t.1 t.2).length ≤ m.length + 1 := omInsert_length_le m t.1 t.2
      _ ≤ n := hlt

theorem foldTags_length_le {n : Nat} (hn : n ≠ 0) :
    ∀ (tags : List Tag) (m : OMap), m.length ≤ n →
      (tags.foldl (procTag n) m).length ≤ n := by
  intro tags
  induction tags with
  | nil => intro m h; simpa using h
  | cons t ts ih =>
    intro m h
    rw [List.foldl_cons]
    exact ih _ (procTag_length_le hn m t h)

theorem procPosts_length_le {n : Nat} (hn : n ≠ 0) :
    ∀ (posts : PageDoc) (m : OMap), m.length ≤ n →
      (procPosts n m posts).length ≤ n := by
  intro posts
  induction posts with
  | nil => intro m h; simpa [procPosts] using h
  | cons post ps ih =>
    intro m h
    simp only [procPosts, List.foldl_cons]
    exact ih _ (foldTags_length_le hn post m h)

theorem findPagesLoop_length_le (fetch : Nat → Except Unit PageDoc)
    {n : Nat} (hn : 0 < n) :
    ∀ (fuel page : Nat) (resp : Option PageDoc) (m res : OMap),
      m.length ≤ n → findPagesLoop fetch n fuel page resp m = Except.ok res →
      res.length ≤ n := by
  intro fuel
  induction fuel with
  | zero =>
    intro page resp m res hm h
    simp only [findPagesLoop, Except.ok.injEq] at h
    subst h
    exact hm
  | succ fuel ih =>
    intro page resp m res hm h
    simp only [findPagesLoop] at h
    by_cases hc : n = 0 ∨ m.length < n
    · rw [if_pos hc] at h
      cases hr : staleResp (fetch (page + 1)) resp with
      | none => rw [hr] at h; simp at h
      | some posts =>
        rw [hr] at h
        dsimp only at h
        by_cases hp : posts.length = 0
        · rw [if_pos hp] at h
          simp only [Except.ok.injEq] at h
          subst h
          exact hm
        · rw [if_neg hp] at h
          exact ih _ _ _ _ (procPosts_length_le (Nat.pos_iff_ne_zero.mp hn) posts m hm) h
    · rw [if_neg hc] at h
      simp only [Except.ok.injEq] at h
      subst h
      exact hm

/-- Claim C6: with a positive desired result count, `find_pages` accumulates
results in first-seen order and never lets the map exceed the desired
count; in the concrete scenario — desired count 2 against two pages each
yielding two results — exactly the first two distinct page URLs are
retained, in first-seen order, and nothing from the second page. -/
theorem c6_desired_count :
    (∀ (fetch : Nat → Except Unit PageDoc) (n fuel : Nat) (m : OMap),
      0 < n → find_pages fetch n fuel = Except.ok m → m.length ≤ n) ∧
    find_pages c6fetch 2 5 = Except.ok [("u1", "t1"), ("u2", "t2")] := by
  constructor
  · intro fetch n fuel m hn h
    exact findPagesLoop_length_le fetch hn fuel 0 none [] m (by simp) h
  · rfl

/-- Claim C6, witness: the size bound applied to the concrete two-page
scenario, whose run is evaluated by the theorem's own second component. -/
theorem c6_witness : ([("u1", "t1"), ("u2", "t2")] : OMap).length ≤ 2 :=
  c6_desired_count.1 c6fetch 2 5 _ (by decide) c6_desired_count.2

theorem specAdd_mem {desired : Nat} {m : List SpecResult} {r x : SpecResult}
    (h : x ∈ specAdd desired m r) : x ∈ m ∨ x = r := by
  unfold specAdd at h
  split at h
  · exact Or.inl h
  · split at h
    · exact Or.inl h
    · rcases List.mem_append.mp h with h | h
      · exact Or.inl h
      · simp only [List.mem_singleton] at h
        exact Or.inr h

theorem scanResults_ge {c desired : Nat} :
    ∀ (rs m : List SpecResult), (∀ y ∈ m, c ≤ y.published) →
      ∀ x ∈ (scanResults (some c) desired rs m).1, c ≤ x.published := by
  intro rs
  induction rs with
  | nil =>
    intro m hm x hx
    exact hm x hx
  | cons r rs ih =>
    intro m hm x hx
    simp only [scanResults] at hx
    by_cases hr : r.published < c
    · rw [if_pos hr] at hx
      exact hm x hx
    · rw [if_neg hr] at hx
      refine ih _ ?_ x hx
      intro y hy
      rcases specAdd_mem hy with hy | hy
      · exact hm y hy
      · subst hy; omega

theorem findPagesDateLoop_ge {c desired : Nat} (pages : Nat → List SpecResult) :
    ∀ (fuel page : Nat) (m : List SpecResult), (∀ y ∈ m, c ≤ y.published) →
      ∀ x ∈ findPagesDateLoop pages desired (some c) fuel page m,
        c ≤ x.published := by
  intro fuel
  induction fuel with
  | zero =>
    intro page m hm x hx
    exact hm x hx
  | succ fuel ih =>
    intro page m hm x hx
    simp only [findPagesDateLoop] at hx
    by_cases hd : desired ≠ 0 ∧ desired ≤ m.length
    · rw [if_pos hd] at hx
      exact hm x hx
    · rw [if_neg hd] at hx
      by_cases hemp : (pages (page + 1)).isEmpty
      · rw [if_pos hemp] at hx
        exact hm x hx
      · rw [if_neg hemp] at hx
        have hstep := @scanResults_ge c desired (pages (page + 1)) m hm
        by_cases h2 : (scanResults (some c) desired (pages (page + 1)) m).2
        · rw [if_pos h2] at hx
          exact hstep x hx
        · rw [if_neg h2] at hx
          exact ih _ _ hstep x hx

/-- Claim C1 (spec-modelled, the date-aware `find_pages` being absent from
src/query.py): with a date cutoff set, Page Discovery scans results in the
page's native newest-first order and the first result older than the cutoff
terminates discovery for the entire query — every retained result is at or
after the cutoff, and in the concrete scenario with dates
[2023-06-01, 2023-05-01, 2022-12-01] on page 1 and [2023-04-01] on page 2
and cutoff 2023-01-01, discovery stops at the third item, so only the first
two results are retained and 2023-04-01 is not. -/
theorem c1_date_cutoff_stops :
    (∀ (pages : Nat → List SpecResult) (desired c fuel : Nat),
      ∀ x ∈ discover pages desired (some c) fuel, c ≤ x.published) ∧
    discover c1pages 0 (some 20230101) 5 =
      [⟨"u1", "t1", 20230601⟩, ⟨"u2", "t2", 20230501⟩] := by
  constructor
  · intro pages desired c fuel x hx
    exact findPagesDateLoop_ge pages fuel 0 [] (by simp) x hx
  · rfl

/-- Claim C1, witness: the cutoff bound applied to a concrete member of the
concrete scenario's retained results. -/
theorem c1_witness :
    (20230101 : Nat) ≤ (⟨"u1", "t1", 20230601⟩ : SpecResult).published :=
  c1_date_cutoff_stops.1 c1pages 0 20230101 5 ⟨"u1", "t1", 20230601⟩
    (by rw [c1_date_cutoff_stops.2]; simp)

theorem find?_filter_ne (q p : String) (h : p ≠ q) :
    ∀ fs : FS,
      List.find? (fun e => e.1 == p) (fs.filter (fun e => !(e.1 == q))) =
        List.find? (fun e => e.1 == p) fs := by
  intro fs
  induction fs with
  | nil => rfl
  | cons e fs ih =>
    by_cases he : e.1 = q
    · have h1 : List.filter (fun e => !(e.1 == q)) (e :: fs) =
          List.filter (fun e => !(e.1 == q)) fs := by
        simp [List.filter_cons, he]
      rw [h1]
      have h2 : List.find? (fun e => e.1 == p) (e :: fs) =
          List.find? (fun e => e.1 == p) fs := by
        apply List.find?_cons_of_neg
        simp only [beq_iff_eq, he]
        exact Ne.symm h
      rw [h2]
      exact ih
    · have h1 : List.filter (fun e => !(e.1 == q)) (e :: fs) =
          e :: List.filter (fun e => !(e.1 == q)) fs := by
        simp [List.filter_cons, he]
      rw [h1]
      by_cases hp : e.1 = p
      · rw [List.find?_cons_of_pos _ (by simp [hp]),
          List.find?_cons_of_pos _ (by simp [hp])]
      · rw [List.find?_cons_of_neg _ (by simp [hp]),
          List.find?_cons_of_neg _ (by simp [hp])]
        exact ih

theorem fsGet_fsErase_ne (fs : FS) (q p : String) (h : p ≠ q) :
    fsGet (fsErase fs q) p = fsGet fs p := by
  unfold fsGet fsErase
  rw [find?_filter_ne q p h fs]

theorem fsGet_fsSet_ne (fs : FS) (q : String) (c : List Nat) (p : String)
    (h : p ≠ q) : fsGet (fsSet fs q c) p = fsGet fs p := by
  have hq : (q == p) = false := beq_eq_false_iff_ne.mpr (Ne.symm h)
  simp only [fsSet, fsGet, List.find?_cons, hq]
  exact fsGet_fsErase_ne fs q p h

theorem fsGet_fsAppend_ne (fs : FS) (q : String) (ch : List Nat) (p : String)
    (h : p ≠ q) : fsGet (fsAppend fs q ch) p = fsGet fs p := by
  unfold fsAppend
  exact fsGet_fsSet_ne _ _ _ _ h

theorem fsGet_foldChunks_ne (q p : String) (h : p ≠ q) :
    ∀ (chunks : List (List Nat)) (fs : FS),
      fsGet (chunks.foldl (fun acc ch => fsAppend acc q ch) fs) p =
        fsGet fs p := by
  intro chunks
  induction chunks with
  | nil => intro fs; rfl
  | cons ch chs ih =>
    intro fs
    rw [List.foldl_cons, ih, fsGet_fsAppend_ne _ _ _ _ h]

theorem download_file_err (fs : FS) (st : DStream) (url fn : String)
    (he : st.err = true) :
    (download_file fs st url (some fn)).2 = some "StreamError" ∧
    ∀ p, p ≠ pyJoin tmpDir fn →
      fsGet (download_file fs st url (some fn)).1 p = fsGet fs p := by
  simp only [download_file, he, if_true]
  constructor
  · trivial
  · intro p hp
    rw [fsGet_foldChunks_ne _ _ hp, fsGet_fsSet_ne _ _ _ _ hp]

/-- Claim C3, counterexample: in a batch of two DIRECT tasks where the first
task's stream is interrupted mid-transfer, the error leaves both
destinations absent (partial bytes only in the first task's scratch file),
but it does NOT abort only that task: the exception ends the loop and the
second task is never attempted — no file of the second task exists anywhere,
refuting "the remaining tasks of the same batch are still attempted". -/
theorem c3_counterexample :
    c3Run.2 = some "StreamError" ∧
    fsGet c3Run.1 "out/a.cbz" = none ∧
    fsGet c3Run.1 "/tmp/out/a.cbz" = some [1] ∧
    fsGet c3Run.1 "out/b.cbz" = none ∧
    fsGet c3Run.1 "/tmp/out/b.cbz" = none :=
  ⟨rfl, rfl, rfl, rfl, rfl⟩

/-- Claim C3, amended: a DIRECT task whose stream is interrupted mid-stream
writes only to its scratch temp file — every other path, in particular the
computed destination, is left exactly as it was, so the rename never occurs —
but the error propagates out of the loop: the run on the whole batch equals
the run on the failing task alone, so the remaining tasks of the batch are
NOT attempted. -/
theorem c3_interrupted_download (fs : FS) (dpath url title : String)
    (st : DStream) (rest : List (String × String × DStream))
    (he : st.err = true) (hm : strStarts url "_MEDIAFIRE_" = false) :
    (download_comics fs dpath ((url, title, st) :: rest)).2 =
      some "StreamError" ∧
    (∀ p, p ≠ pyJoin tmpDir (destFileName fs dpath url) →
      fsGet (download_comics fs dpath ((url, title, st) :: rest)).1 p =
        fsGet fs p) ∧
    download_comics fs dpath ((url, title, st) :: rest) =
      download_comics fs dpath [(url, title, st)] := by
  have hdf := download_file_err fs st url (destFileName fs dpath url) he
  cases hdd : download_file fs st url (some (destFileName fs dpath url)) with
  | mk fs1 e2 =>
    have he2 : e2 = some "StreamError" := by
      have h1 := hdf.1
      rw [hdd] at h1
      exact h1
    subst he2
    have hfs1 : ∀ p, p ≠ pyJoin tmpDir (destFileName fs dpath url) →
        fsGet fs1 p = fsGet fs p := by
      intro p hp
      have h2 := hdf.2 p hp
      rw [hdd] at h2
      exact h2
    simp only [download_comics, hm, Bool.false_eq_true, if_false, hdd]
    refine ⟨?_, hfs1, ?_⟩ <;> trivial

/-- Claim C3, witness: the amended theorem applied to the concrete
interrupted task, its hypotheses discharged by evaluation. -/
theorem c3_witness :
    (download_comics [] "out"
      [("http://h/a.cbz", "A", ⟨[[1]], true⟩)]).2 = some "StreamError" :=
  (c3_interrupted_download [] "out" "http://h/a.cbz" "A" ⟨[[1]], true⟩ []
    rfl rfl).1

end GetComics
